import Mathlib

/-!
Verification of the corporate-website contact-form backend
(`src/server/contact_handler.py` and `src/backend/api/contact.py`).

Shallow embedding conventions:
* Python strings are `String` (a list of characters); all regular-expression
  patterns that the source uses are compiled by hand into executable matchers
  over `List Char` with exactly the backtracking semantics of Python `re`
  (leftmost, non-overlapping matches; greedy and non-greedy parts resolved as
  the concrete patterns force).  Case-insensitive matching and the character
  classes are modelled over ASCII, matching every input these claims range over.
* Instants are integers (seconds); `datetime` subtraction and `timedelta`
  arithmetic are exact, so `now - timedelta(minutes=m)` is `now - m * 60` and
  the retention `timedelta(days=d)` is `d * 86400`.
* `dict` lookups with a default (`form_data.get(k, d)`) are `Option.getD`.
* Python exceptions raised by validation code are explicit `Option`-typed
  error results; the handler's `except ValueError` branch is the `none`/failed
  branch of the embedding.
* Nondeterministic effects (uuid generation, wall-clock reads, SHA-256
  hashing of the IP) are parameters of the embedding (`freshId`, `now`,
  `hashIp`): the control flow of `process_submission` never inspects their
  values, only passes them along.
* An audit event is modelled by its `event_type` and its `event_data`
  key/value payload; the generated uuid and timestamp fields carry no
  information about the submission and are omitted.
-/

/-! ## Character helpers (ASCII models of Python `\s`, `\w`, `str.isalnum`) -/

/-- Python whitespace (`\s`, `str.strip`): space, tab, newline, carriage
return, vertical tab, form feed. -/
def isPyWsChar (c : Char) : Bool :=
  c = ' ' || c = '\t' || c = '\n' || c = '\r' || c = '\x0b' || c = '\x0c'

/-- Python `\w` word character (ASCII): letter, digit or underscore. -/
def isWordCharPy (c : Char) : Bool :=
  c.isAlpha || c.isDigit || c = '_'

/-- ASCII alphanumeric character, the model of Python `str.isalnum` per
character. -/
def isAlnumChar (c : Char) : Bool :=
  c.isAlpha || c.isDigit

/-- Python `str.isalnum()`: true iff the string is nonempty and every
character is alphanumeric. -/
def pyIsAlnum (s : String) : Bool :=
  s != "" && s.data.all isAlnumChar

/-- Case-insensitive match of one pattern character `p` (the patterns below
are written in lowercase) against a subject character `c`, as `re.IGNORECASE`
does on ASCII: `c` is `p` itself or, when `p` is a letter, its uppercase
form. -/
def ciMatchChar (p c : Char) : Bool :=
  c = p || (p.isLower && c.toNat = p.toNat - 32)

/-! ## Literal matchers and the `re.sub` driver -/

/-- Match the literal pattern `pat` case-insensitively at the head of `s`,
returning the remainder after the match. -/
def matchLitCI : List Char → List Char → Option (List Char)
  | [], s => some s
  | _ :: _, [] => none
  | p :: ps, c :: cs => if ciMatchChar p c then matchLitCI ps cs else none

/-- `re.search` for a case-insensitive literal: does `pat` match at any
position of `s`? -/
def searchLitCI (pat : List Char) : List Char → Bool
  | [] => (matchLitCI pat []).isSome
  | c :: cs => (matchLitCI pat (c :: cs)).isSome || searchLitCI pat cs

def scriptOpenPat : List Char := ['<', 's', 'c', 'r', 'i', 'p', 't']

def scriptClosePat : List Char := ['<', '/', 's', 'c', 'r', 'i', 'p', 't', '>']

def jsPat : List Char := ['j', 'a', 'v', 'a', 's', 'c', 'r', 'i', 'p', 't', ':']

def vbsPat : List Char := ['v', 'b', 's', 'c', 'r', 'i', 'p', 't', ':']

def dataPat : List Char := ['d', 'a', 't', 'a', ':']

/-- Consume characters up to and including the first `>`; `none` if there is
no `>`.  This is `[^>]*>` : the starred class cannot cross a `>`, so the
match always ends at the first `>`. -/
def consumeToGt : List Char → Option (List Char)
  | [] => none
  | c :: cs => if c = '>' then some cs else consumeToGt cs

/-- Consume characters up to and including the first case-insensitive
occurrence of `</script>`; `none` if there is none.  This is the non-greedy
`.*?</script>` under `re.DOTALL`. -/
def consumeToScriptClose : List Char → Option (List Char)
  | [] => none
  | c :: cs =>
    match matchLitCI scriptClosePat (c :: cs) with
    | some r => some r
    | none => consumeToScriptClose cs

/-- The pattern `<script[^>]*>.*?</script>` (IGNORECASE, DOTALL) matched at
the head of the input. -/
def matchScriptTag (s : List Char) : Option (List Char) :=
  match matchLitCI scriptOpenPat s with
  | none => none
  | some r1 =>
    match consumeToGt r1 with
    | none => none
    | some r2 => consumeToScriptClose r2

/-- The pattern `on\w+\s*=` (IGNORECASE) matched at the head of the input.
Taking the maximal `\w` run then the maximal `\s` run is complete: a shorter
run would leave the next character a word (resp. whitespace) character,
which can equal neither a whitespace nor `=`. -/
def matchOnHandler (s : List Char) : Option (List Char) :=
  match s with
  | o :: n :: rest =>
    if ciMatchChar 'o' o && ciMatchChar 'n' n then
      let w := rest.takeWhile isWordCharPy
      if w.isEmpty then none
      else
        match (rest.dropWhile isWordCharPy).dropWhile isPyWsChar with
        | [] => none
        | e :: r3 => if e = '=' then some r3 else none
    else none
  | _ => none

/-- The pattern `<[^>]*>` matched at the head of the input. -/
def matchHtmlTag : List Char → Option (List Char)
  | [] => none
  | c :: cs => if c = '<' then consumeToGt cs else none

/-- One `re.sub(pattern, '', s)` pass: scan left to right; where the matcher
fires, emit nothing and continue after the match; otherwise emit the
character and advance one position.  The fuel argument (initially the length
of the input) only serves termination: every matcher above consumes at least
one character, so the fuel is never exhausted. -/
def subAllFuel (m : List Char → Option (List Char)) : Nat → List Char → List Char
  | 0, s => s
  | _ + 1, [] => []
  | fuel + 1, c :: cs =>
    match m (c :: cs) with
    | some r => subAllFuel m fuel r
    | none => c :: subAllFuel m fuel cs

def subAll (m : List Char → Option (List Char)) (s : List Char) : List Char :=
  subAllFuel m s.length s

/-! ## `html.escape` and `str.strip` -/

/-- Per-character action of Python `html.escape` (with its default
`quote=True`).  `html.escape` replaces `&` first and the other characters
afterwards, which is exactly this character-wise map. -/
def escapeChar (c : Char) : List Char :=
  if c = '&' then ['&', 'a', 'm', 'p', ';']
  else if c = '<' then ['&', 'l', 't', ';']
  else if c = '>' then ['&', 'g', 't', ';']
  else if c = '"' then ['&', 'q', 'u', 'o', 't', ';']
  else if c = '\'' then ['&', '#', 'x', '2', '7', ';']
  else [c]

def htmlEscape (l : List Char) : List Char :=
  (l.map escapeChar).flatten

/-- Python `str.strip()`: drop leading and trailing whitespace. -/
def pyStrip (l : List Char) : List Char :=
  ((l.dropWhile isPyWsChar).reverse.dropWhile isPyWsChar).reverse

def pyStripStr (s : String) : String :=
  String.mk (pyStrip s.data)

/-! ## The sanitizer (`ContactFormData.sanitize_message`,
`src/backend/api/contact.py` lines 52-75)

The source applies six `re.sub(p, '', ·, IGNORECASE | DOTALL)` passes in
order — script tags with content, `javascript:`, `vbscript:`, `data:`,
`on\w+\s*=`, any remaining `<[^>]*>` tag — then `html.escape`s the residue
and strips surrounding whitespace; an empty message is returned unchanged. -/

def sanitize_message (v : String) : String :=
  if v = "" then v
  else
    let s1 := subAll matchScriptTag v.data
    let s2 := subAll (matchLitCI jsPat) s1
    let s3 := subAll (matchLitCI vbsPat) s2
    let s4 := subAll (matchLitCI dataPat) s3
    let s5 := subAll matchOnHandler s4
    let s6 := subAll matchHtmlTag s5
    String.mk (pyStrip (htmlEscape s6))

example : sanitize_message "<script>alert(1)</script>" = "" := by decide
example : sanitize_message "  hello  " = "hello" := by decide
example : sanitize_message "<b>bold</b>" = "bold" := by decide
example : sanitize_message "a JavaScript: link" = "a  link" := by decide
example : sanitize_message "x onerror=1" = "x 1" := by decide
example : sanitize_message "a < b" = "a &lt; b" := by decide
example : sanitize_message "java<b>script:" = "javascript:" := by decide
example : sanitize_message "&" = "&amp;" := by decide
example : sanitize_message "&amp;" = "&amp;amp;" := by decide

/-! ## Email regex (`^[^\s@]+@[^\s@]+\.[^\s@]+$`, `re.match`)

`[^\s@]+` cannot contain `@`, so the first group ends at the first `@` of the
string and the remainder contains no further `@`; the `\.` needs at least one
clean character on each side inside the remainder.  Python's `$` also matches
just before a single trailing newline. -/

/-- A character allowed in the local and domain parts: not whitespace, not
`@`. -/
def emailCleanChar (c : Char) : Bool :=
  !isPyWsChar c && c != '@'

/-- Split at the first occurrence of `ch`, returning the parts before and
after it. -/
def splitAtChar (ch : Char) : List Char → Option (List Char × List Char)
  | [] => none
  | c :: cs =>
    if c = ch then some ([], cs)
    else (splitAtChar ch cs).map (fun p => (c :: p.1, p.2))

def emailCore (s : List Char) : Bool :=
  match splitAtChar '@' s with
  | none => false
  | some (a, m) =>
    !a.isEmpty && a.all emailCleanChar && !m.isEmpty && m.all emailCleanChar &&
      ((m.drop 1).dropLast.contains '.')

def emailRegexMatch (s : List Char) : Bool :=
  emailCore s || (s.getLast? == some '\n' && emailCore s.dropLast)

example : emailRegexMatch "john@example.com".data = true := by decide
example : emailRegexMatch "a@b.c".data = true := by decide
example : emailRegexMatch "a@b.c\n".data = true := by decide
example : emailRegexMatch "invalid-email".data = false := by decide
example : emailRegexMatch "a@b".data = false := by decide
example : emailRegexMatch "a@.c".data = false := by decide
example : emailRegexMatch "a@b.".data = false := by decide
example : emailRegexMatch "a b@c.d".data = false := by decide
example : emailRegexMatch "a@b@c.d".data = false := by decide

/-! ## `ContactFormData` and its validator
(`src/server/contact_handler.py` lines 27-69) -/

structure ContactFormData where
  name : String
  email : String
  message : String
  timestamp : String
  consent_given : Bool
  ip_address_hash : String
  user_agent : String
deriving DecidableEq, Repr

/-- The dangerous-pattern scan of `ContactFormData.validate`: `re.search`
(IGNORECASE) for `<script`, `javascript:`, `on\w+\s*=`, `data:`. -/
def dangerousSearch (s : List Char) : Bool :=
  searchLitCI scriptOpenPat s || searchLitCI jsPat s || searchOnHandler s ||
    searchLitCI dataPat s
where
  searchOnHandler : List Char → Bool
    | [] => (matchOnHandler []).isSome
    | c :: cs => (matchOnHandler (c :: cs)).isSome || searchOnHandler cs

/-- `ContactFormData.validate`: raises `ValueError(msg)` — modelled as
`some msg` — at the first failed check, in source order: name length, email
length, message length, email format, dangerous patterns over name, email,
message (the field loop is outer, so any hit in an earlier field fires
first; all pattern hits raise the same message).  The `isinstance(_, str)`
halves of the type checks are vacuous here because the fields are typed
strings.  Returns `none` when every check passes. -/
def ContactFormData.validate (d : ContactFormData) : Option String :=
  if 100 < d.name.length then some "Invalid name field"
  else if 255 < d.email.length then some "Invalid email field"
  else if 5000 < d.message.length then some "Invalid message field"
  else if !emailRegexMatch d.email.data then some "Invalid email format"
  else if dangerousSearch d.name.data then some "Invalid input detected"
  else if dangerousSearch d.email.data then some "Invalid input detected"
  else if dangerousSearch d.message.data then some "Invalid input detected"
  else none

/-- Constructing a `ContactFormData` runs `validate` from `__post_init__`:
the constructor returns the record only when validation raises nothing. -/
def mkContactFormData (name email message timestamp : String)
    (consent : Bool) (ipHash userAgent : String) : Option ContactFormData :=
  let d : ContactFormData :=
    ⟨name, email, message, timestamp, consent, ipHash, userAgent⟩
  match d.validate with
  | some _ => none
  | none => some d

/-! ## Small helpers of the handler module -/

/-- `sanitize_user_agent`: empty becomes `"unknown"`, otherwise truncate to
200 characters. -/
def sanitize_user_agent (ua : String) : String :=
  if ua = "" then "unknown"
  else String.mk (ua.data.take 200)

/-- `validate_csrf_token` (lines 139-142): `token and len(token) == 32 and
token.isalnum()` — an empty token is falsy, the length must be exactly 32
and every character alphanumeric.  The session token is unused. -/
def validate_csrf_token (token session : String) : Bool :=
  token != "" && token.length == 32 && pyIsAlnum token

example : validate_csrf_token "a1b2c3d4e5f6g7h8i9j0k1l2m3n4o5p6" "s" = true := by decide
example : validate_csrf_token "" "s" = false := by decide

/-! ## `DataRetentionManager` (lines 91-117)

Durations are exact `timedelta`s, here in seconds: 5*365 days, 7*365 days,
30 days.  `if not retention_period` is falsy exactly on a missing key since
every stored duration is nonzero. -/

def RETENTION_POLICIES (dataType : String) : Option Int :=
  if dataType = "contact_forms" then some (5 * 365 * 86400)
  else if dataType = "audit_logs" then some (7 * 365 * 86400)
  else if dataType = "user_sessions" then some (30 * 86400)
  else none

def should_retain (dataType : String) (createdAt now : Int) : Bool :=
  match RETENTION_POLICIES dataType with
  | none => false
  | some p => decide (now < createdAt + p)

def get_expiry_date (dataType : String) (createdAt : Int) : Option Int :=
  (RETENTION_POLICIES dataType).map (fun p => createdAt + p)

/-! ## The rate limiter (`check_rate_limit`, lines 151-171) -/

/-- The `self.rate_limiter` dict: per hashed identifier, the recorded
request instants (missing keys read as the empty list). -/
def RateState : Type := String → List Int

def rlEmpty : RateState := fun _ => []

/-- `check_rate_limit`: read the identifier's list, drop instants at or
before `now - window`, reject without writing back when the remainder
reaches `max_requests`, otherwise append `now` and store the pruned list.
Note that on rejection the stored dict entry is left untouched (the pruned
local copy is discarded). -/
def check_rate_limit (st : RateState) (ipHash : String) (now : Int)
    (maxRequests : Nat) (windowMinutes : Int) : Bool × RateState :=
  let windowStart := now - windowMinutes * 60
  let requests := (st ipHash).filter (fun r => decide (windowStart < r))
  if maxRequests ≤ requests.length then (false, st)
  else (true, fun k => if k = ipHash then requests ++ [now] else st k)

def rlAllow (st : RateState) (ipHash : String) (now : Int) : Bool :=
  (check_rate_limit st ipHash now 5 5).1

def rlStep (st : RateState) (ipHash : String) (now : Int) : RateState :=
  (check_rate_limit st ipHash now 5 5).2

/-- A whole call history, oldest first, against the default limits. -/
def runCalls (st : RateState) : List (String × Int) → RateState
  | [] => st
  | (ipHash, t) :: rest => runCalls (rlStep st ipHash t) rest

/-! ## Audit events and the submission pipeline
(`AuditLogger.log_event` lines 75-88, `process_submission` lines 173-254) -/

/-- One audit event: its `event_type` tag and the `event_data` payload
(stringly-valued, as it is serialised into the log line).  The generated
uuid and timestamp of `AuditLogger.log_event` are omitted: they are fresh
randomness carrying no information about the submission. -/
structure AuditEvent where
  eventType : String
  eventData : List (String × String)
deriving DecidableEq, Repr

/-- The result dictionary returned by `process_submission`; absent keys are
`none`. -/
structure SubmitResult where
  success : Bool
  submission_id : Option String
  message : Option String
  error : Option String
deriving DecidableEq, Repr

/-- The inbound `form_data` dict as the pipeline reads it: `get('name', '')`
etc. — a field is a string or absent, `consent_given` a boolean or absent. -/
structure FormData where
  name : Option String
  email : Option String
  message : Option String
  consent_given : Option Bool
deriving DecidableEq, Repr

/-- Everything one `process_submission` call produces: the returned result,
the rate-limiter dict afterwards, the audit events in emission order, and
the records handed to `store_contact_data` (empty when storage was never
invoked). -/
structure SubmissionOutcome where
  result : SubmitResult
  limiter : RateState
  events : List AuditEvent
  stored : List ContactFormData

/-- Python `bool(_)` of a string rendered into the audit payload. -/
def pyBoolStr (b : Bool) : String :=
  if b then "True" else "False"

/-- The `data_retention_expiry` payload value of the success event:
`get_expiry_date('contact_forms', now).isoformat()` when a policy exists. -/
def retentionExpiryStr (now : Int) : String :=
  match get_expiry_date "contact_forms" now with
  | some e => toString e
  | none => "None"

def attemptEvent (ipHash uaSan : String) (hasCsrf : Bool) : AuditEvent :=
  ⟨"contact_form_attempt",
    [("ip_hash", ipHash), ("user_agent", uaSan), ("has_csrf_token", pyBoolStr hasCsrf)]⟩

/-- The `contact_form_validation_error` event: the payload records only the
hashed IP and `type(e).__name__`, which is `ValueError` for every raised
validation error (bad CSRF, rate limit, field validation, missing consent). -/
def validationErrorEvent (ipHash : String) : AuditEvent :=
  ⟨"contact_form_validation_error", [("ip_hash", ipHash), ("error_type", "ValueError")]⟩

def successEvent (submissionId ipHash : String) (now : Int) : AuditEvent :=
  ⟨"contact_form_success",
    [("submission_id", submissionId), ("ip_hash", ipHash),
     ("data_retention_expiry", retentionExpiryStr now)]⟩

def invalidFormResult : SubmitResult :=
  ⟨false, none, none, some "Invalid form data. Please check your input and try again."⟩

/-- `ContactFormHandler.process_submission`.  Parameters beyond the Python
ones: `hashIp` abstracts the salted SHA-256 `hash_ip_address`, `now` the
wall clock, `freshId` the uuid4 `store_contact_data` returns.  The body
follows the source exactly: log the attempt; inside the `try`, check the
CSRF token, then the rate limit (whose state write persists even when a
later step fails), then build and validate `ContactFormData` from the
stripped fields, then check consent, then store and log success; every
`ValueError` lands in the handler that logs `contact_form_validation_error`
and returns the generic invalid-form result.  No other exception type can
arise from these steps, so the `contact_form_error` handler is unreachable
in the embedding. -/
def process_submission (hashIp : String → String) (st : RateState)
    (form : FormData) (ip ua csrf session : String) (now : Int)
    (freshId : String) : SubmissionOutcome :=
  let ipHash := hashIp ip
  let attempt := attemptEvent ipHash (sanitize_user_agent ua) (csrf != "")
  let failOut : RateState → SubmissionOutcome := fun st' =>
    ⟨invalidFormResult, st', [attempt, validationErrorEvent ipHash], []⟩
  if !validate_csrf_token csrf session then failOut st
  else
    let rl := check_rate_limit st ipHash now 5 5
    if !rl.1 then failOut rl.2
    else
      match mkContactFormData (pyStripStr (form.name.getD ""))
          (pyStripStr (form.email.getD "")) (pyStripStr (form.message.getD ""))
          (toString now) (form.consent_given.getD false) ipHash
          (sanitize_user_agent ua) with
      | none => failOut rl.2
      | some contactData =>
        if !contactData.consent_given then failOut rl.2
        else
          ⟨⟨true, some freshId,
             some "Thank you for your message. We will get back to you soon.", none⟩,
           rl.2, [attempt, successEvent freshId ipHash now], [contactData]⟩

/-! ## Concrete fixtures used by witnesses and counterexamples -/

/-- The 32-character alphanumeric CSRF token from the source's example
usage. -/
def tok32 : String := "a1b2c3d4e5f6g7h8i9j0k1l2m3n4o5p6"

def formOK : FormData :=
  ⟨some "John", some "john@example.com", some "Hello", some true⟩

def formNoConsent : FormData :=
  ⟨some "John", some "john@example.com", some "Hello", some false⟩

/-- A limiter dict already holding five fresh requests for `"1.2.3.4"`. -/
def stFull : RateState := fun k => if k = "1.2.3.4" then [0, 0, 0, 0, 0] else []

example :
    (process_submission (fun s => s) rlEmpty formOK "1.2.3.4" "UA" tok32 "sess" 0
      "id1").result.success = true := by decide

example :
    (process_submission (fun s => s) rlEmpty formNoConsent "1.2.3.4" "UA" tok32 "sess" 0
      "id1").result.success = false := by decide

example :
    (process_submission (fun s => s) stFull formOK "1.2.3.4" "UA" tok32 "sess" 0
      "id1").events = [attemptEvent "1.2.3.4" "UA" true, validationErrorEvent "1.2.3.4"] := by
  decide

/-! ## Claim theorems -/

/-- Claim C9: for every known data class, `get_expiry_date` is creation time
plus the class's fixed duration and `should_retain` holds exactly while
`now` is before that expiry — true immediately after creation, false once
`now` exceeds `created_at` plus 5 years for `contact_forms`; for every
unknown class `should_retain` is false and the expiry is `none`
(fail-closed). -/
theorem C9_retention_policy (c : String) (createdAt now : Int) :
    (∀ d : Int, RETENTION_POLICIES c = some d →
      get_expiry_date c createdAt = some (createdAt + d) ∧
      (should_retain c createdAt now = true ↔ now < createdAt + d)) ∧
    (RETENTION_POLICIES c = none →
      should_retain c createdAt now = false ∧ get_expiry_date c createdAt = none) ∧
    should_retain "contact_forms" createdAt createdAt = true ∧
    (createdAt + 5 * 365 * 86400 < now →
      should_retain "contact_forms" createdAt now = false) := by
  refine ⟨?_, ?_, ?_, ?_⟩
  · intro d hd
    simp [get_expiry_date, should_retain, hd]
  · intro hd
    simp [get_expiry_date, should_retain, hd]
  · have h : RETENTION_POLICIES "contact_forms" = some (5 * 365 * 86400) := by decide
    simp [should_retain, h]
  · intro hlt
    have h : RETENTION_POLICIES "contact_forms" = some (5 * 365 * 86400) := by decide
    simp [should_retain, h]
    omega

/-- Witness for C9 at concrete inputs: the `contact_forms` expiry is
creation plus five years, retention holds at creation and fails just past
expiry, and an unknown class is never retained. -/
theorem C9_retention_policy_witness :
    get_expiry_date "contact_forms" 0 = some 157680000 ∧
    should_retain "contact_forms" 0 0 = true ∧
    should_retain "contact_forms" 0 157680001 = false ∧
    should_retain "user_files" 0 0 = false ∧
    get_expiry_date "user_files" 0 = none := by
  refine ⟨?_, ?_, ?_, ?_, ?_⟩
  · exact ((C9_retention_policy "contact_forms" 0 0).1 157680000 (by decide)).1
  · exact (C9_retention_policy "contact_forms" 0 0).2.2.1
  · exact (C9_retention_policy "contact_forms" 0 157680001).2.2.2 (by decide)
  · exact ((C9_retention_policy "user_files" 0 0).2.1 (by decide)).1
  · exact ((C9_retention_policy "user_files" 0 0).2.1 (by decide)).2

/-- Claim C7, counterexample: a 16-character alphanumeric token lies inside
the 16-64 range of the stated external interface, yet `validate_csrf_token`
rejects it — the pipeline's check demands length exactly 32. -/
theorem C7_csrf_counterexample :
    validate_csrf_token "aaaaaaaaaaaaaaaa" "sess" = false ∧
    "aaaaaaaaaaaaaaaa".length = 16 ∧
    pyIsAlnum "aaaaaaaaaaaaaaaa" = true := by decide

/-- Claim C7 as amended: the pipeline's CSRF check accepts a token iff it
has length exactly 32 and every character is alphanumeric (which forces it
to be non-empty); 16-64 is enforced only by the FastAPI boundary model, not
by this check. -/
theorem C7_csrf_amended (token session : String) :
    validate_csrf_token token session = true ↔
      (token.length = 32 ∧ token.data.all isAlnumChar = true) := by
  constructor
  · intro h
    simp only [validate_csrf_token, pyIsAlnum, Bool.and_eq_true, bne_iff_ne,
      beq_iff_eq] at h
    exact ⟨h.1.2, h.2.2⟩
  · rintro ⟨h1, h2⟩
    have hne : token ≠ "" := by
      intro he
      rw [he] at h1
      simp at h1
    simp only [validate_csrf_token, pyIsAlnum, Bool.and_eq_true, bne_iff_ne,
      beq_iff_eq]
    exact ⟨⟨hne, h1⟩, hne, h2⟩

/-- A 101-character name, used to overflow the validator's name bound. -/
def longName : String := String.mk (List.replicate 101 'a')

/-- Claim C6, counterexample: a record whose name is too long AND whose
email is malformed produces the single error of the first failed check —
`Invalid name field` — with no accumulated email-format error, so the
validator short-circuits instead of reporting multiple errors together. -/
theorem C6_validator_counterexample :
    (ContactFormData.mk longName "bad" "hi" "ts" true "h" "ua").validate =
      some "Invalid name field" ∧
    emailRegexMatch "bad".data = false ∧
    100 < longName.length := by decide

/-- Claim C6 as amended: `ContactFormData.validate` evaluates its checks in
a fixed order and raises at the first failure, reporting exactly one error
(the record passes iff every check passes); presence and consent are not
among its checks — consent is enforced separately by the pipeline. -/
theorem C6_validator_amended (d : ContactFormData) :
    (d.validate = none ↔
      (d.name.length ≤ 100 ∧ d.email.length ≤ 255 ∧ d.message.length ≤ 5000 ∧
        emailRegexMatch d.email.data = true ∧ dangerousSearch d.name.data = false ∧
        dangerousSearch d.email.data = false ∧ dangerousSearch d.message.data = false)) ∧
    (100 < d.name.length → d.validate = some "Invalid name field") := by
  unfold ContactFormData.validate
  split_ifs with h1 h2 h3 h4 h5 h6 h7
  · exact ⟨by constructor <;> intro h <;> [simp at h; omega], fun _ => rfl⟩
  · exact ⟨by constructor <;> intro h <;> [simp at h; omega], fun h => absurd h h1⟩
  · exact ⟨by constructor <;> intro h <;> [simp at h; omega], fun h => absurd h h1⟩
  · refine ⟨⟨by simp, fun h => ?_⟩, fun h => absurd h h1⟩
    rw [h.2.2.2.1] at h4
    simp at h4
  · refine ⟨⟨by simp, fun h => ?_⟩, fun h => absurd h h1⟩
    rw [h.2.2.2.2.1] at h5
    simp at h5
  · refine ⟨⟨by simp, fun h => ?_⟩, fun h => absurd h h1⟩
    rw [h.2.2.2.2.2.1] at h6
    simp at h6
  · refine ⟨⟨by simp, fun h => ?_⟩, fun h => absurd h h1⟩
    rw [h.2.2.2.2.2.2] at h7
    simp at h7
  · refine ⟨⟨fun _ => ?_, fun _ => rfl⟩, fun h => absurd h h1⟩
    refine ⟨by omega, by omega, by omega, ?_, ?_, ?_, ?_⟩
    · simpa using h4
    · simpa using h5
    · simpa using h6
    · simpa using h7

/-- Witness for C6's amended theorem at a concrete record: the well-formed
fixture validates cleanly, and the over-long name yields the name error. -/
theorem C6_validator_amended_witness :
    (ContactFormData.mk "John" "john@example.com" "Hello" "0" true "h" "UA").validate
        = none ∧
    (ContactFormData.mk longName "bad" "hi" "ts" true "h" "ua").validate
        = some "Invalid name field" := by
  constructor
  · exact (C6_validator_amended
      (ContactFormData.mk "John" "john@example.com" "Hello" "0" true "h" "UA")).1.mpr
      (by decide)
  · exact (C6_validator_amended
      (ContactFormData.mk longName "bad" "hi" "ts" true "h" "ua")).2 (by decide)

/-- When construction succeeds, the record is exactly the one built from the
constructor arguments (validation does not alter fields). -/
lemma mkContactFormData_some (n e m ts : String) (co : Bool) (ih ua : String)
    (d : ContactFormData) (h : mkContactFormData n e m ts co ih ua = some d) :
    d = ⟨n, e, m, ts, co, ih, ua⟩ := by
  simp only [mkContactFormData] at h
  split at h
  · exact absurd h (by simp)
  · injection h with h
    exact h.symm

/-- A consent flag that is not the boolean `true` reads back as `false`
through `form_data.get('consent_given', False)`. -/
lemma consent_getD_false (o : Option Bool) (h : o ≠ some true) :
    o.getD false = false := by
  cases o with
  | none => rfl
  | some b =>
    cases b with
    | false => rfl
    | true => exact absurd rfl h

/-- Claim C1: whenever `consent_given` is not boolean true (false or
absent), `process_submission` returns `success = false`, logs a
`contact_form_validation_error` audit event, and never invokes
`store_contact_data` — no record is persisted. -/
theorem C1_consent_gate (hashIp : String → String) (st : RateState)
    (form : FormData) (ip ua csrf session : String) (now : Int) (freshId : String)
    (hconsent : form.consent_given ≠ some true) :
    (process_submission hashIp st form ip ua csrf session now freshId).result.success
        = false ∧
    validationErrorEvent (hashIp ip) ∈
      (process_submission hashIp st form ip ua csrf session now freshId).events ∧
    (process_submission hashIp st form ip ua csrf session now freshId).stored = [] := by
  have hc : form.consent_given.getD false = false := consent_getD_false _ hconsent
  simp only [process_submission]
  split_ifs with h1 h2
  · refine ⟨?_, ?_, ?_⟩ <;> simp [invalidFormResult]
  · refine ⟨?_, ?_, ?_⟩ <;> simp [invalidFormResult]
  · split
    · refine ⟨?_, ?_, ?_⟩ <;> simp [invalidFormResult]
    · next d hd =>
      have hd' := mkContactFormData_some _ _ _ _ _ _ _ _ hd
      have hdc : d.consent_given = false := by rw [hd', hc]
      refine ⟨?_, ?_, ?_⟩ <;> simp [hdc, invalidFormResult]

/-- Witness for C1: the fixture with `consent_given = false` is rejected
with a validation-error audit event and nothing stored. -/
theorem C1_consent_gate_witness :
    (process_submission (fun s => s) rlEmpty formNoConsent "1.2.3.4" "UA" tok32
        "sess" 0 "id1").result.success = false ∧
    validationErrorEvent "1.2.3.4" ∈
      (process_submission (fun s => s) rlEmpty formNoConsent "1.2.3.4" "UA" tok32
        "sess" 0 "id1").events ∧
    (process_submission (fun s => s) rlEmpty formNoConsent "1.2.3.4" "UA" tok32
        "sess" 0 "id1").stored = [] :=
  C1_consent_gate (fun s => s) rlEmpty formNoConsent "1.2.3.4" "UA" tok32
    "sess" 0 "id1" (by decide)

/-- Claim C5: every `process_submission` call emits the attempt event first
and then exactly one outcome event before returning — two audit events in
total — and a successful submission emits exactly (attempt, success). -/
theorem C5_audit_pairing (hashIp : String → String) (st : RateState)
    (form : FormData) (ip ua csrf session : String) (now : Int) (freshId : String) :
    ((process_submission hashIp st form ip ua csrf session now freshId).events.map
          AuditEvent.eventType = ["contact_form_attempt", "contact_form_success"] ∨
      (process_submission hashIp st form ip ua csrf session now freshId).events.map
          AuditEvent.eventType =
        ["contact_form_attempt", "contact_form_validation_error"] ∨
      (process_submission hashIp st form ip ua csrf session now freshId).events.map
          AuditEvent.eventType = ["contact_form_attempt", "contact_form_error"]) ∧
    ((process_submission hashIp st form ip ua csrf session now freshId).result.success
          = true →
      (process_submission hashIp st form ip ua csrf session now freshId).events.map
          AuditEvent.eventType = ["contact_form_attempt", "contact_form_success"]) := by
  simp only [process_submission]
  split_ifs with h1 h2
  · exact ⟨Or.inr (Or.inl rfl), fun h => by simp [invalidFormResult] at h⟩
  · exact ⟨Or.inr (Or.inl rfl), fun h => by simp [invalidFormResult] at h⟩
  · split
    · exact ⟨Or.inr (Or.inl rfl), fun h => by simp [invalidFormResult] at h⟩
    · split_ifs with h3
      · exact ⟨Or.inr (Or.inl rfl), fun h => by simp [invalidFormResult] at h⟩
      · exact ⟨Or.inl rfl, fun _ => rfl⟩

/-- Witness for C5: the valid fixture succeeds and emits exactly the
(attempt, success) pair. -/
theorem C5_audit_pairing_witness :
    (process_submission (fun s => s) rlEmpty formOK "1.2.3.4" "UA" tok32 "sess" 0
        "id1").events.map AuditEvent.eventType =
      ["contact_form_attempt", "contact_form_success"] :=
  (C5_audit_pairing (fun s => s) rlEmpty formOK "1.2.3.4" "UA" tok32 "sess" 0
    "id1").2 (by decide)

/-- Claim C8, counterexample: a genuinely rate-limited submission (valid
CSRF token, valid consenting form, limiter already holding five fresh
requests) and a consent-refused submission from the same client emit
exactly the same audit event list — attempt, then
`contact_form_validation_error` with `error_type` `ValueError` — so the two
causes are NOT distinguishable via the audit trail, while the outward
results agree as claimed. -/
theorem C8_audit_counterexample :
    (process_submission (fun s => s) stFull formOK "1.2.3.4" "UA" tok32 "sess" 0
        "id1").events =
      (process_submission (fun s => s) rlEmpty formNoConsent "1.2.3.4" "UA" tok32
        "sess" 0 "id2").events ∧
    (process_submission (fun s => s) stFull formOK "1.2.3.4" "UA" tok32 "sess" 0
        "id1").result =
      (process_submission (fun s => s) rlEmpty formNoConsent "1.2.3.4" "UA" tok32
        "sess" 0 "id2").result ∧
    (check_rate_limit stFull "1.2.3.4" 0 5 5).1 = false ∧
    validate_csrf_token tok32 "sess" = true ∧
    formOK.consent_given = some true ∧
    formNoConsent.consent_given = some false ∧
    (process_submission (fun s => s) stFull formOK "1.2.3.4" "UA" tok32 "sess" 0
        "id1").result.success = false := by decide

/-- Claim C8 as amended: a rate-limit rejection produces the same generic
outward-facing result as a validation failure, and the audit events are
identical as well — any rate-limited call and any consent-refused call from
the same client (same IP, user agent and CSRF token) emit the same event
list (attempt, then `contact_form_validation_error`), so the audit trail
does not distinguish the two causes. -/
theorem C8_audit_indistinguishable (hashIp : String → String)
    (st1 st2 : RateState) (form1 form2 : FormData) (ip ua csrf session : String)
    (now1 now2 : Int) (fid1 fid2 : String)
    (hcsrf : validate_csrf_token csrf session = true)
    (hrate1 : (check_rate_limit st1 (hashIp ip) now1 5 5).1 = false)
    (hrate2 : (check_rate_limit st2 (hashIp ip) now2 5 5).1 = true)
    (hconsent2 : form2.consent_given ≠ some true) :
    (process_submission hashIp st1 form1 ip ua csrf session now1 fid1).events =
      (process_submission hashIp st2 form2 ip ua csrf session now2 fid2).events ∧
    (process_submission hashIp st1 form1 ip ua csrf session now1 fid1).result =
      (process_submission hashIp st2 form2 ip ua csrf session now2 fid2).result ∧
    (process_submission hashIp st1 form1 ip ua csrf session now1 fid1).result.success
      = false := by
  have hc2 : form2.consent_given.getD false = false :=
    consent_getD_false _ hconsent2
  simp only [process_submission, hcsrf, hrate1, hrate2, Bool.not_true,
    Bool.not_false, if_true, if_false, Bool.false_eq_true, Bool.true_eq_false]
  split
  · exact ⟨rfl, rfl, rfl⟩
  · next d hd =>
    have hd' := mkContactFormData_some _ _ _ _ _ _ _ _ hd
    have hdc : d.consent_given = false := by rw [hd', hc2]
    refine ⟨?_, ?_, ?_⟩ <;> simp [hdc, invalidFormResult]

/-- Witness for C8's amended theorem at the concrete fixtures. -/
theorem C8_audit_indistinguishable_witness :
    (process_submission (fun s => s) stFull formOK "1.2.3.4" "UA" tok32 "sess" 0
        "idA").events =
      (process_submission (fun s => s) rlEmpty formNoConsent "1.2.3.4" "UA" tok32
        "sess" 0 "idB").events ∧
    (process_submission (fun s => s) stFull formOK "1.2.3.4" "UA" tok32 "sess" 0
        "idA").result =
      (process_submission (fun s => s) rlEmpty formNoConsent "1.2.3.4" "UA" tok32
        "sess" 0 "idB").result ∧
    (process_submission (fun s => s) stFull formOK "1.2.3.4" "UA" tok32 "sess" 0
        "idA").result.success = false :=
  C8_audit_indistinguishable (fun s => s) stFull rlEmpty formOK formNoConsent
    "1.2.3.4" "UA" tok32 "sess" 0 0 "idA" "idB" (by decide) (by decide) (by decide)
    (by decide)

/-- A call whose pruned request list is still under the limit is accepted
and appends `now` to the pruned list under its identifier. -/
lemma rl_accept (st : RateState) (idh : String) (t : Int)
    (h : (List.filter (fun r => decide (t - 5 * 60 < r)) (st idh)).length < 5) :
    rlAllow st idh t = true ∧
    rlStep st idh t idh
      = List.filter (fun r => decide (t - 5 * 60 < r)) (st idh) ++ [t] := by
  constructor
  · simp only [rlAllow, check_rate_limit]
    rw [if_neg (by omega)]
  · simp only [rlStep, check_rate_limit]
    rw [if_neg (by omega)]
    simp

/-- A call whose pruned request list has reached the limit is rejected and
leaves the stored dict completely unchanged. -/
lemma rl_reject (st : RateState) (idh : String) (t : Int)
    (h : 5 ≤ (List.filter (fun r => decide (t - 5 * 60 < r)) (st idh)).length) :
    rlAllow st idh t = false ∧ rlStep st idh t = st := by
  constructor
  · simp only [rlAllow, check_rate_limit]
    rw [if_pos h]
  · simp only [rlStep, check_rate_limit]
    rw [if_pos h]

/-- Claim C4: with the defaults (`max_requests = 5`, `window_minutes = 5`,
i.e. 300 seconds), five successive calls for one identifier within the
window are all accepted, a sixth call still inside the window is rejected,
the rejecting call records nothing (the stored dict is unchanged), and a
later call made once the window has elapsed past all recorded instants is
accepted again. -/
theorem C4_rate_limiter (id : String) (t1 t2 t3 t4 t5 t6 t7 : Int)
    (h12 : t1 ≤ t2) (h23 : t2 ≤ t3) (h34 : t3 ≤ t4) (h45 : t4 ≤ t5) (h56 : t5 ≤ t6)
    (hwin : t6 < t1 + 5 * 60) (hgap : t5 + 5 * 60 ≤ t7) :
    rlAllow rlEmpty id t1 = true ∧
    rlAllow (rlStep rlEmpty id t1) id t2 = true ∧
    rlAllow (rlStep (rlStep rlEmpty id t1) id t2) id t3 = true ∧
    rlAllow (rlStep (rlStep (rlStep rlEmpty id t1) id t2) id t3) id t4 = true ∧
    rlAllow (rlStep (rlStep (rlStep (rlStep rlEmpty id t1) id t2) id t3) id t4) id t5
      = true ∧
    rlAllow (rlStep (rlStep (rlStep (rlStep (rlStep rlEmpty id t1) id t2) id t3) id t4)
      id t5) id t6 = false ∧
    rlStep (rlStep (rlStep (rlStep (rlStep (rlStep rlEmpty id t1) id t2) id t3) id t4)
        id t5) id t6 =
      rlStep (rlStep (rlStep (rlStep (rlStep rlEmpty id t1) id t2) id t3) id t4) id t5 ∧
    rlAllow (rlStep (rlStep (rlStep (rlStep (rlStep rlEmpty id t1) id t2) id t3) id t4)
      id t5) id t7 = true := by
  have hf2 : List.filter (fun r => decide (t2 - 5 * 60 < r)) [t1] = [t1] := by
    rw [List.filter_eq_self]
    intro a ha
    simp only [List.mem_cons, List.not_mem_nil, or_false] at ha
    subst ha
    exact decide_eq_true (by omega)
  have hf3 : List.filter (fun r => decide (t3 - 5 * 60 < r)) [t1, t2] = [t1, t2] := by
    rw [List.filter_eq_self]
    intro a ha
    simp only [List.mem_cons, List.not_mem_nil, or_false] at ha
    rcases ha with rfl | rfl <;> exact decide_eq_true (by omega)
  have hf4 : List.filter (fun r => decide (t4 - 5 * 60 < r)) [t1, t2, t3]
      = [t1, t2, t3] := by
    rw [List.filter_eq_self]
    intro a ha
    simp only [List.mem_cons, List.not_mem_nil, or_false] at ha
    rcases ha with rfl | rfl | rfl <;> exact decide_eq_true (by omega)
  have hf5 : List.filter (fun r => decide (t5 - 5 * 60 < r)) [t1, t2, t3, t4]
      = [t1, t2, t3, t4] := by
    rw [List.filter_eq_self]
    intro a ha
    simp only [List.mem_cons, List.not_mem_nil, or_false] at ha
    rcases ha with rfl | rfl | rfl | rfl <;> exact decide_eq_true (by omega)
  have hf6 : List.filter (fun r => decide (t6 - 5 * 60 < r)) [t1, t2, t3, t4, t5]
      = [t1, t2, t3, t4, t5] := by
    rw [List.filter_eq_self]
    intro a ha
    simp only [List.mem_cons, List.not_mem_nil, or_false] at ha
    rcases ha with rfl | rfl | rfl | rfl | rfl <;> exact decide_eq_true (by omega)
  have hf7 : List.filter (fun r => decide (t7 - 5 * 60 < r)) [t1, t2, t3, t4, t5]
      = [] := by
    rw [List.filter_eq_nil_iff]
    intro a ha
    simp only [List.mem_cons, List.not_mem_nil, or_false] at ha
    rcases ha with rfl | rfl | rfl | rfl | rfl <;>
      · simp only [decide_eq_true_eq, not_lt]
        omega
  have h1 := rl_accept rlEmpty id t1 (by simp [rlEmpty])
  have hs1 : rlStep rlEmpty id t1 id = [t1] := by
    rw [h1.2]
    simp [rlEmpty]
  have h2 := rl_accept (rlStep rlEmpty id t1) id t2 (by rw [hs1, hf2]; simp)
  have hs2 : rlStep (rlStep rlEmpty id t1) id t2 id = [t1, t2] := by
    rw [h2.2, hs1, hf2]
    rfl
  have h3 := rl_accept (rlStep (rlStep rlEmpty id t1) id t2) id t3
    (by rw [hs2, hf3]; simp)
  have hs3 : rlStep (rlStep (rlStep rlEmpty id t1) id t2) id t3 id
      = [t1, t2, t3] := by
    rw [h3.2, hs2, hf3]
    rfl
  have h4 := rl_accept (rlStep (rlStep (rlStep rlEmpty id t1) id t2) id t3) id t4
    (by rw [hs3, hf4]; simp)
  have hs4 : rlStep (rlStep (rlStep (rlStep rlEmpty id t1) id t2) id t3) id t4 id
      = [t1, t2, t3, t4] := by
    rw [h4.2, hs3, hf4]
    rfl
  have h5 := rl_accept (rlStep (rlStep (rlStep (rlStep rlEmpty id t1) id t2) id t3)
    id t4) id t5 (by rw [hs4, hf5]; simp)
  have hs5 : rlStep (rlStep (rlStep (rlStep (rlStep rlEmpty id t1) id t2) id t3) id t4)
      id t5 id = [t1, t2, t3, t4, t5] := by
    rw [h5.2, hs4, hf5]
    rfl
  have h6 := rl_reject (rlStep (rlStep (rlStep (rlStep (rlStep rlEmpty id t1) id t2)
    id t3) id t4) id t5) id t6 (by rw [hs5, hf6]; simp)
  have h7 := rl_accept (rlStep (rlStep (rlStep (rlStep (rlStep rlEmpty id t1) id t2)
    id t3) id t4) id t5) id t7 (by rw [hs5, hf7]; simp)
  exact ⟨h1.1, h2.1, h3.1, h4.1, h5.1, h6.1, h6.2, h7.1⟩

/-- Witness for C4: five calls at instant 0, a sixth at instant 1, and a
seventh at instant 300 seconds. -/
theorem C4_rate_limiter_witness :
    rlAllow rlEmpty "a" 0 = true ∧
    rlAllow (rlStep rlEmpty "a" 0) "a" 0 = true ∧
    rlAllow (rlStep (rlStep rlEmpty "a" 0) "a" 0) "a" 0 = true ∧
    rlAllow (rlStep (rlStep (rlStep rlEmpty "a" 0) "a" 0) "a" 0) "a" 0 = true ∧
    rlAllow (rlStep (rlStep (rlStep (rlStep rlEmpty "a" 0) "a" 0) "a" 0) "a" 0) "a" 0
      = true ∧
    rlAllow (rlStep (rlStep (rlStep (rlStep (rlStep rlEmpty "a" 0) "a" 0) "a" 0) "a" 0)
      "a" 0) "a" 1 = false ∧
    rlStep (rlStep (rlStep (rlStep (rlStep (rlStep rlEmpty "a" 0) "a" 0) "a" 0) "a" 0)
        "a" 0) "a" 1 =
      rlStep (rlStep (rlStep (rlStep (rlStep rlEmpty "a" 0) "a" 0) "a" 0) "a" 0) "a" 0 ∧
    rlAllow (rlStep (rlStep (rlStep (rlStep (rlStep rlEmpty "a" 0) "a" 0) "a" 0) "a" 0)
      "a" 0) "a" 300 = true :=
  C4_rate_limiter "a" 0 0 0 0 0 1 300 (by decide) (by decide) (by decide) (by decide)
    (by decide) (by decide) (by decide)

/-- The stored dict never holds more than `max_requests` instants per
identifier: entries are only written as a pruned under-limit list plus the
current instant. -/
lemma check_rate_limit_bound (st : RateState) (idh : String) (t : Int)
    (h : ∀ k, (st k).length ≤ 5) :
    ∀ k, (((check_rate_limit st idh t 5 5).2) k).length ≤ 5 := by
  intro k
  simp only [check_rate_limit]
  split
  · exact h k
  · next hlen =>
    show (if k = idh then _ ++ [t] else st k).length ≤ 5
    by_cases hk : k = idh
    · rw [if_pos hk]
      have hle := List.length_filter_le (fun r => decide (t - 5 * 60 < r)) (st idh)
      simp only [List.length_append, List.length_cons, List.length_nil]
      omega
    · rw [if_neg hk]
      exact h k

/-- The per-identifier bound holds for every state reachable from the empty
dict. -/
lemma runCalls_bound (calls : List (String × Int)) :
    ∀ k, ((runCalls rlEmpty calls) k).length ≤ 5 := by
  have main : ∀ (cs : List (String × Int)) (st : RateState),
      (∀ k, (st k).length ≤ 5) → ∀ k, ((runCalls st cs) k).length ≤ 5 := by
    intro cs
    induction cs with
    | nil => exact fun st h => h
    | cons c rest ih =>
      intro st h
      obtain ⟨cid, ct⟩ := c
      exact ih _ (check_rate_limit_bound st cid ct h)
  exact main calls rlEmpty (fun k => by simp [rlEmpty])

/-- A list at least as long as its own filtrate satisfies the filter
predicate everywhere. -/
lemma all_of_length_le_filter (p : Int → Bool) :
    ∀ l : List Int, l.length ≤ (l.filter p).length → ∀ a ∈ l, p a = true := by
  intro l
  induction l with
  | nil => intro _ a ha; cases ha
  | cons c cs ih =>
    intro h a ha
    by_cases hc : p c = true
    · rcases List.mem_cons.mp ha with rfl | ha2
      · exact hc
      · refine ih ?_ a ha2
        simp only [List.filter_cons, hc, if_true, List.length_cons] at h
        omega
    · exfalso
      have hle := List.length_filter_le p cs
      simp only [List.filter_cons, hc, if_false, List.length_cons,
        Bool.false_eq_true] at h
      omega

/-- Claim C10: for every identifier, after any call to the rate limiter
(on any history of prior calls from the empty dict), every instant stored
under that identifier lies within the 5-minute window of that call's time —
on an accepting call because the list was pruned and rewritten, on a
rejecting call because the untouched stored list can hold at most 5
entries, all of which the pruning check just found inside the window. -/
theorem C10_window_invariant (prior : List (String × Int)) (id : String) (t : Int) :
    (((check_rate_limit (runCalls rlEmpty prior) id t 5 5).2) id).all
      (fun x => decide (t - 5 * 60 < x)) = true := by
  have hlen := runCalls_bound prior id
  simp only [check_rate_limit]
  split
  · next hge =>
    rw [List.all_eq_true]
    intro x hx
    exact all_of_length_le_filter (fun r => decide (t - 5 * 60 < r))
      (runCalls rlEmpty prior id) (by omega) x hx
  · next hlt =>
    show (if id = id then _ ++ [t] else _).all _ = true
    rw [if_pos rfl, List.all_eq_true]
    intro x hx
    rcases List.mem_append.mp hx with hx1 | hx2
    · exact (List.mem_filter.mp hx1).2
    · simp only [List.mem_cons, List.not_mem_nil, or_false] at hx2
      subst hx2
      exact decide_eq_true (by omega)

/-- Every character emitted by `escapeChar` differs from `<` and `>`: the
entity expansions contain neither, and a character passed through unchanged
was itself neither. -/
lemma escapeChar_no_angle (c x : Char) (hx : x ∈ escapeChar c) :
    x ≠ '<' ∧ x ≠ '>' := by
  unfold escapeChar at hx
  split_ifs at hx with h1 h2 h3 h4 h5
  · fin_cases hx <;> exact ⟨by decide, by decide⟩
  · fin_cases hx <;> exact ⟨by decide, by decide⟩
  · fin_cases hx <;> exact ⟨by decide, by decide⟩
  · fin_cases hx <;> exact ⟨by decide, by decide⟩
  · fin_cases hx <;> exact ⟨by decide, by decide⟩
  · rcases List.mem_cons.mp hx with rfl | hx2
    · exact ⟨h2, h3⟩
    · cases hx2

/-- No `<` or `>` survives HTML-entity escaping. -/
lemma htmlEscape_no_angle (l : List Char) (x : Char) (hx : x ∈ htmlEscape l) :
    x ≠ '<' ∧ x ≠ '>' := by
  unfold htmlEscape at hx
  rw [List.mem_flatten] at hx
  obtain ⟨piece, hpiece, hx2⟩ := hx
  rw [List.mem_map] at hpiece
  obtain ⟨c, _, rfl⟩ := hpiece
  exact escapeChar_no_angle c x hx2

/-- Stripping only removes characters. -/
lemma mem_of_mem_pyStrip (l : List Char) (x : Char) (hx : x ∈ pyStrip l) :
    x ∈ l := by
  unfold pyStrip at hx
  rw [List.mem_reverse] at hx
  have hx2 := (List.dropWhile_sublist _).mem hx
  rw [List.mem_reverse] at hx2
  exact (List.dropWhile_sublist _).mem hx2

/-- Claim C2, counterexample: the input `java<b>script:` contains an HTML
tag (`<b>`, in the claim's scope), yet removing that tag rejoins the
surrounding fragments into a `javascript:` prefix that survives into the
sanitizer's output — which the claim says can never contain it.  The input
itself contained no `javascript:` occurrence before sanitization. -/
theorem C2_sanitizer_counterexample :
    sanitize_message "java<b>script:" = "javascript:" ∧
    searchLitCI jsPat "javascript:".data = true ∧
    searchLitCI jsPat "java<b>script:".data = false ∧
    (matchHtmlTag "<b>script:".data).isSome = true := by decide

/-- Claim C2 as amended: for every input the sanitizer's output contains no
raw `<` or `>` character at all — the residue is HTML-entity-escaped, so no
script tag or other HTML tag markup survives — but dangerous non-tag
substrings (`javascript:`, `vbscript:`, `data:`, `on\w+=`) can be rebuilt
by the removal passes and survive in the output. -/
theorem C2_sanitizer_amended (v : String) :
    (sanitize_message v).data.all (fun c => decide (c ≠ '<' ∧ c ≠ '>')) = true := by
  rw [List.all_eq_true]
  intro x hx
  unfold sanitize_message at hx
  split_ifs at hx with h
  · rw [h] at hx
    exact absurd hx (by simp)
  · have hx2 : x ∈ pyStrip (htmlEscape (subAll matchHtmlTag (subAll matchOnHandler
        (subAll (matchLitCI dataPat) (subAll (matchLitCI vbsPat)
          (subAll (matchLitCI jsPat) (subAll matchScriptTag v.data))))))) := hx
    have hx3 := mem_of_mem_pyStrip _ _ hx2
    exact decide_eq_true (htmlEscape_no_angle _ _ hx3)

/-- Claim C3, counterexample: `html.escape` is re-applied on re-sanitization,
so the ampersand of an entity gets escaped again. -/
theorem C3_idem_counterexample :
    sanitize_message (sanitize_message "&") ≠ sanitize_message "&" ∧
    sanitize_message "&" = "&amp;" ∧
    sanitize_message (sanitize_message "&") = "&amp;amp;" := by decide

/-- A `re.sub` pass is the identity when the pattern matches at no suffix. -/
lemma subAllFuel_id (m : List Char → Option (List Char)) :
    ∀ s : List Char, (∀ t, t <:+ s → m t = none) → ∀ fuel, subAllFuel m fuel s = s := by
  intro s
  induction s with
  | nil =>
    intro _ fuel
    cases fuel <;> rfl
  | cons c cs ih =>
    intro h fuel
    cases fuel with
    | zero => rfl
    | succ n =>
      have hm := h (c :: cs) (List.suffix_refl _)
      simp only [subAllFuel, hm]
      exact congrArg (c :: ·) (ih (fun t ht => h t (ht.trans (List.suffix_cons c cs))) n)

lemma subAll_id (m : List Char → Option (List Char)) (s : List Char)
    (h : ∀ t, t <:+ s → m t = none) : subAll m s = s :=
  subAllFuel_id m s h s.length

/-- A successful case-insensitive literal match puts a counterpart of every
pattern character somewhere in the subject. -/
lemma matchLitCI_mem : ∀ pat s r : List Char, matchLitCI pat s = some r →
    ∀ q ∈ pat, ∃ c ∈ s, ciMatchChar q c = true := by
  intro pat
  induction pat with
  | nil =>
    intro s r _ q hq
    cases hq
  | cons p ps ih =>
    intro s r h q hq
    cases s with
    | nil => exact absurd h (by simp [matchLitCI])
    | cons c cs =>
      simp only [matchLitCI] at h
      by_cases hci : ciMatchChar p c = true
      · rw [if_pos hci] at h
        rcases List.mem_cons.mp hq with rfl | hq2
        · exact ⟨c, List.mem_cons_self c cs, hci⟩
        · obtain ⟨c2, hc2, hm2⟩ := ih cs r h q hq2
          exact ⟨c2, List.mem_cons_of_mem c hc2, hm2⟩
      · rw [if_neg hci] at h
        cases h

/-- For a non-letter pattern character, a case-insensitive character match
is plain equality. -/
lemma ciMatchChar_symbol (p c : Char) (hp : p.isLower = false)
    (h : ciMatchChar p c = true) : c = p := by
  simp only [ciMatchChar, hp, Bool.false_and, Bool.or_false, decide_eq_true_eq] at h
  exact h

/-- A case-insensitive literal cannot match when some case-fixed pattern
character is absent from the subject. -/
lemma matchLitCI_none_of_not_mem (pat s : List Char) (q : Char) (hq : q ∈ pat)
    (hlow : q.isLower = false) (hs : q ∉ s) : matchLitCI pat s = none := by
  cases h : matchLitCI pat s with
  | none => rfl
  | some r =>
    obtain ⟨c, hc, hm⟩ := matchLitCI_mem pat s r h q hq
    rw [ciMatchChar_symbol q c hlow hm] at hc
    exact absurd hc hs

/-- `<script...>...</script>` cannot match a string without `<`. -/
lemma matchScriptTag_none (s : List Char) (hs : '<' ∉ s) :
    matchScriptTag s = none := by
  unfold matchScriptTag
  rw [matchLitCI_none_of_not_mem scriptOpenPat s '<' (by decide) (by decide) hs]

/-- `<[^>]*>` cannot match a string without `<`. -/
lemma matchHtmlTag_none (s : List Char) (hs : '<' ∉ s) : matchHtmlTag s = none := by
  cases s with
  | nil => rfl
  | cons c cs =>
    simp only [matchHtmlTag]
    have hne : c ≠ '<' := by
      intro hc
      subst hc
      exact hs (List.mem_cons_self _ _)
    rw [if_neg hne]

/-- `on\w+\s*=` cannot match a string without `=`. -/
lemma matchOnHandler_none (s : List Char) (hs : '=' ∉ s) :
    matchOnHandler s = none := by
  cases s with
  | nil => rfl
  | cons o s1 =>
    cases s1 with
    | nil => rfl
    | cons n rest =>
      simp only [matchOnHandler]
      split_ifs with hon hw
      · rfl
      · cases hdrop : (rest.dropWhile isWordCharPy).dropWhile isPyWsChar with
        | nil => rfl
        | cons e r3 =>
          have he1 : e ∈ (rest.dropWhile isWordCharPy).dropWhile isPyWsChar := by
            rw [hdrop]
            exact List.mem_cons_self e r3
          have he2 : e ∈ rest :=
            (List.dropWhile_sublist _).mem ((List.dropWhile_sublist _).mem he1)
          have he3 : e ∈ o :: n :: rest :=
            List.mem_cons_of_mem o (List.mem_cons_of_mem n he2)
          have hne : e ≠ '=' := by
            intro hc
            subst hc
            exact hs he3
          show (if e = '=' then some r3 else none) = none
          rw [if_neg hne]
      · rfl

/-- `html.escape` is the identity on characters it does not rewrite. -/
lemma escapeChar_id (c : Char) (h1 : c ≠ '&') (h2 : c ≠ '<') (h3 : c ≠ '>')
    (h4 : c ≠ '"') (h5 : c ≠ '\'') : escapeChar c = [c] := by
  unfold escapeChar
  rw [if_neg h1, if_neg h2, if_neg h3, if_neg h4, if_neg h5]

lemma htmlEscape_id (l : List Char)
    (h : ∀ c ∈ l, c ≠ '&' ∧ c ≠ '<' ∧ c ≠ '>' ∧ c ≠ '"' ∧ c ≠ '\'') :
    htmlEscape l = l := by
  induction l with
  | nil => rfl
  | cons c cs ih =>
    have hc := h c (List.mem_cons_self c cs)
    simp only [htmlEscape, List.map_cons, List.flatten_cons]
    rw [escapeChar_id c hc.1 hc.2.1 hc.2.2.1 hc.2.2.2.1 hc.2.2.2.2]
    have ih2 := ih (fun x hx => h x (List.mem_cons_of_mem c hx))
    simp only [htmlEscape] at ih2
    rw [ih2]
    rfl

lemma dropWhile_idem (p : Char → Bool) (l : List Char) :
    (l.dropWhile p).dropWhile p = l.dropWhile p := by
  induction l with
  | nil => rfl
  | cons c cs ih =>
    by_cases h : p c = true
    · simp [List.dropWhile_cons, h, ih]
    · simp [List.dropWhile_cons, h]

/-- The strip of a list is a prefix of its front-trimmed form. -/
lemma pyStrip_prefix_dropWhile (l : List Char) : pyStrip l <+: l.dropWhile isPyWsChar := by
  have h : (l.dropWhile isPyWsChar).reverse.dropWhile isPyWsChar <:+
      (l.dropWhile isPyWsChar).reverse := List.dropWhile_suffix _
  have h2 := List.reverse_prefix.mpr h
  simpa [pyStrip] using h2

/-- A prefix of a front-trimmed list is front-trimmed. -/
lemma dropWhile_eq_self_of_prefix (p : Char → Bool) (w u : List Char)
    (hpre : w <+: u) (hu : u.dropWhile p = u) : w.dropWhile p = w := by
  cases w with
  | nil => rfl
  | cons c cs =>
    obtain ⟨t, ht⟩ := hpre
    have hc : p c = false := by
      by_contra hcc
      have hcc2 : p c = true := by simpa using hcc
      rw [← ht, List.cons_append, List.dropWhile_cons, if_pos hcc2] at hu
      have h1 := congrArg List.length hu
      have h2 : (List.dropWhile p (cs ++ t)).length ≤ (cs ++ t).length :=
        (List.dropWhile_sublist _).length_le
      simp only [List.length_cons] at h1
      omega
    rw [List.dropWhile_cons, if_neg (by simp [hc])]

/-- Python's `strip` is idempotent. -/
lemma pyStrip_idem (l : List Char) : pyStrip (pyStrip l) = pyStrip l := by
  have h1 : (pyStrip l).dropWhile isPyWsChar = pyStrip l :=
    dropWhile_eq_self_of_prefix isPyWsChar (pyStrip l) (l.dropWhile isPyWsChar)
      (pyStrip_prefix_dropWhile l) (dropWhile_idem _ _)
  have hwrev : (pyStrip l).reverse
      = (l.dropWhile isPyWsChar).reverse.dropWhile isPyWsChar := by
    simp [pyStrip]
  have h2 : (pyStrip l).reverse.dropWhile isPyWsChar = (pyStrip l).reverse := by
    rw [hwrev]
    exact dropWhile_idem _ _
  show (((pyStrip l).dropWhile isPyWsChar).reverse.dropWhile isPyWsChar).reverse
      = pyStrip l
  rw [h1, h2, List.reverse_reverse]

/-- Characters that no removal pass and no escaping step of the sanitizer
can act on: not markup brackets, not the `:` of the protocol prefixes, not
the `=` of event handlers, and not HTML-escapable. -/
def plainChar (c : Char) : Bool :=
  c != '<' && c != '>' && c != ':' && c != '=' && c != '&' && c != '"' && c != '\''

/-- On a string without `<`, `:` or `=`, all six removal passes are the
identity. -/
lemma sanitize_passes_id (s : List Char) (hlt : '<' ∉ s) (hcol : ':' ∉ s)
    (heqc : '=' ∉ s) :
    subAll matchScriptTag s = s ∧ subAll (matchLitCI jsPat) s = s ∧
    subAll (matchLitCI vbsPat) s = s ∧ subAll (matchLitCI dataPat) s = s ∧
    subAll matchOnHandler s = s ∧ subAll matchHtmlTag s = s := by
  have hsub : ∀ t : List Char, t <:+ s → '<' ∉ t ∧ ':' ∉ t ∧ '=' ∉ t := by
    intro t ht
    exact ⟨fun hc => hlt (ht.sublist.mem hc), fun hc => hcol (ht.sublist.mem hc),
      fun hc => heqc (ht.sublist.mem hc)⟩
  refine ⟨?_, ?_, ?_, ?_, ?_, ?_⟩
  · exact subAll_id _ _ fun t ht => matchScriptTag_none t (hsub t ht).1
  · exact subAll_id _ _ fun t ht =>
      matchLitCI_none_of_not_mem jsPat t ':' (by decide) (by decide) (hsub t ht).2.1
  · exact subAll_id _ _ fun t ht =>
      matchLitCI_none_of_not_mem vbsPat t ':' (by decide) (by decide) (hsub t ht).2.1
  · exact subAll_id _ _ fun t ht =>
      matchLitCI_none_of_not_mem dataPat t ':' (by decide) (by decide) (hsub t ht).2.1
  · exact subAll_id _ _ fun t ht => matchOnHandler_none t (hsub t ht).2.2
  · exact subAll_id _ _ fun t ht => matchHtmlTag_none t (hsub t ht).1

/-- On a nonempty string free of all sanitizer-relevant characters, the
sanitizer only strips surrounding whitespace. -/
lemma sanitize_eq_strip (v : String) (hv : v ≠ "") (hlt : '<' ∉ v.data)
    (hgt : '>' ∉ v.data) (hcol : ':' ∉ v.data) (heqc : '=' ∉ v.data)
    (hamp : '&' ∉ v.data) (hquo : '"' ∉ v.data) (hapo : '\'' ∉ v.data) :
    sanitize_message v = String.mk (pyStrip v.data) := by
  have hp := sanitize_passes_id v.data hlt hcol heqc
  have hesc : htmlEscape v.data = v.data := by
    refine htmlEscape_id _ fun c hc => ⟨?_, ?_, ?_, ?_, ?_⟩
    · intro h2
      subst h2
      exact hamp hc
    · intro h2
      subst h2
      exact hlt hc
    · intro h2
      subst h2
      exact hgt hc
    · intro h2
      subst h2
      exact hquo hc
    · intro h2
      subst h2
      exact hapo hc
  unfold sanitize_message
  rw [if_neg hv]
  show String.mk (pyStrip (htmlEscape (subAll matchHtmlTag (subAll matchOnHandler
    (subAll (matchLitCI dataPat) (subAll (matchLitCI vbsPat)
      (subAll (matchLitCI jsPat) (subAll matchScriptTag v.data)))))))) = _
  rw [hp.1, hp.2.1, hp.2.2.1, hp.2.2.2.1, hp.2.2.2.2.1, hp.2.2.2.2.2, hesc]

/-- Claim C3 as amended: the sanitizer is not idempotent in general (see the
counterexample on `&`, and pattern fragments rejoined by removals are only
caught one round later), but it is idempotent on inputs containing none of
the characters the sanitizer acts on: `<`, `>`, `:`, `=`, `&`, `"`, `'`. -/
theorem C3_sanitizer_amended (v : String) (h : v.data.all plainChar = true) :
    sanitize_message (sanitize_message v) = sanitize_message v := by
  have hall := List.all_eq_true.mp h
  have hlt : '<' ∉ v.data := fun hc => by simpa [plainChar] using hall '<' hc
  have hgt : '>' ∉ v.data := fun hc => by simpa [plainChar] using hall '>' hc
  have hcol : ':' ∉ v.data := fun hc => by simpa [plainChar] using hall ':' hc
  have heqc : '=' ∉ v.data := fun hc => by simpa [plainChar] using hall '=' hc
  have hamp : '&' ∉ v.data := fun hc => by simpa [plainChar] using hall '&' hc
  have hquo : '"' ∉ v.data := fun hc => by simpa [plainChar] using hall '"' hc
  have hapo : '\'' ∉ v.data := fun hc => by simpa [plainChar] using hall '\'' hc
  by_cases hv : v = ""
  · rw [hv]
    decide
  · have hw := sanitize_eq_strip v hv hlt hgt hcol heqc hamp hquo hapo
    have hm : ∀ x : Char, x ∈ pyStrip v.data → x ∈ v.data :=
      fun x => mem_of_mem_pyStrip v.data x
    by_cases hw0 : pyStrip v.data = []
    · rw [hw, hw0]
      decide
    · have hvne2 : String.mk (pyStrip v.data) ≠ "" := by
        intro he
        apply hw0
        have h2 := congrArg String.data he
        simpa using h2
      rw [hw]
      have hw2 := sanitize_eq_strip (String.mk (pyStrip v.data)) hvne2
        (fun hc => hlt (hm _ hc)) (fun hc => hgt (hm _ hc)) (fun hc => hcol (hm _ hc))
        (fun hc => heqc (hm _ hc)) (fun hc => hamp (hm _ hc)) (fun hc => hquo (hm _ hc))
        (fun hc => hapo (hm _ hc))
      rw [hw2]
      show String.mk (pyStrip (pyStrip v.data)) = String.mk (pyStrip v.data)
      rw [pyStrip_idem]

/-- Witness for C3's amended theorem on a concrete plain string. -/
theorem C3_sanitizer_amended_witness :
    "hello".data.all plainChar = true ∧
    sanitize_message (sanitize_message "hello") = sanitize_message "hello" :=
  ⟨by decide, C3_sanitizer_amended "hello" (by decide)⟩
